import Mathlib

/-!
Verification of the ICS-to-CalDAV synchronisation engine
(src/ics_caldav_sync.py) against its natural-language specification.

The embedding models timestamps as an integer wall-clock value together
with an optional fixed UTC offset (none = naive, some off = zone-aware),
events as records carrying a uid, start/end timestamps, and an all-day
flag, and the destination store as a list of (uid, occurs-after-now)
pairs; the caldav search primitive used by the listing helper is modelled
by its contract (search restricted to now returns the events occurring
after now).  The side-effecting collaborator calls (save_event, delete)
are passed in as functions returning explicit result values; an uncaught
Python exception is modelled by the failure field of each phase outcome,
which short-circuits everything that textually follows the raise site.
-/

/-- A timestamp: a wall-clock value plus an optional fixed UTC offset.
none models a naive datetime; some off models an aware datetime whose
utcoffset is off. -/
structure Timestamp where
  wall : Int
  zone : Option Int
deriving DecidableEq, Repr

/-- The absolute instant of a timestamp: for an aware stamp with offset
off the instant is wall - off (Python compares aware datetimes by their
UTC instants); a naive stamp has no offset to subtract. -/
def Timestamp.instant (t : Timestamp) : Int :=
  match t.zone with
  | some off => t.wall - off
  | none => t.wall

/-- Whether the timestamp is zone-aware: models the Python test
(tzinfo is not None and tzinfo.utcoffset(...) is not None). -/
def Timestamp.isAware (t : Timestamp) : Bool :=
  t.zone.isSome

/-- Relabel the timestamp into a new zone keeping the wall-clock value,
the semantics of replace_timezone in the ics library. -/
def Timestamp.replaceZone (t : Timestamp) (tz : Int) : Timestamp :=
  { t with zone := some tz }

/-- A calendar event as the filter and reconciler see it. -/
structure Event where
  uid : String
  start : Timestamp
  endTime : Timestamp
  isAllDay : Bool
deriving DecidableEq, Repr

/-- Event.replace_timezone: rewrite both timestamps into the override
zone, keeping wall-clock values. -/
def Event.replaceTimezone (e : Event) (tz : Int) : Event :=
  { e with start := e.start.replaceZone tz, endTime := e.endTime.replaceZone tz }

/-- Lines 133-134 of synchronise: apply the timezone override when one is
configured and the event is not all-day. -/
def applyTz (tzOverride : Option Int) (e : Event) : Event :=
  match tzOverride with
  | some tz => if e.isAllDay then e else e.replaceTimezone tz
  | none => e

/-- Lines 136-146 of synchronise: the decision to keep the event.  When
sync_all is set no comparison is made; otherwise the aware end is
compared against the aware now by instant and the naive end against the
naive now by wall-clock value, skipping the event when now is strictly
later. -/
def keepsEvent (syncAll : Bool) (nowNaive nowAware : Int) (e : Event) : Bool :=
  if syncAll then
    true
  else
    match e.endTime.zone with
    | some off => !(decide (nowAware > e.endTime.wall - off))
    | none => !(decide (nowNaive > e.endTime.wall))

/-- The window filter of the loop in synchronise: each event is first
rewritten by the timezone override, then kept or skipped by keepsEvent.
Output order preserves input order. -/
def filterEvents (syncAll : Bool) (nowNaive nowAware : Int) (tzOverride : Option Int)
    (events : List Event) : List Event :=
  (events.map (applyTz tzOverride)).filter (keepsEvent syncAll nowNaive nowAware)

/-- Outcome of calling save_event on the destination for one event.
validateError models vobject.base.ValidateError, valueError models
ValueError (both caught at lines 150-153); transportError models any
other exception a caldav or HTTP failure raises (not caught). -/
inductive SaveResult where
  | ok
  | validateError
  | valueError
  | transportError
deriving DecidableEq, Repr

/-- Result of the create loop: the uids submitted to save_event, the uids
saved, the uids skipped after a caught exception, and the uid whose save
raised an uncaught exception, if any. -/
structure CreateOutcome where
  attempted : List String
  created : List String
  skipped : List String
  failure : Option String
deriving DecidableEq, Repr

/-- Lines 148-156 of synchronise applied to the already-filtered events:
each save is attempted in order; ValidateError and ValueError are caught
and the event skipped; any other exception aborts the loop. -/
def createPhase (save : Event → SaveResult) : List Event → CreateOutcome
  | [] => ⟨[], [], [], none⟩
  | e :: rest =>
    match save e with
    | SaveResult.ok =>
      let r := createPhase save rest
      ⟨e.uid :: r.attempted, e.uid :: r.created, r.skipped, r.failure⟩
    | SaveResult.validateError =>
      let r := createPhase save rest
      ⟨e.uid :: r.attempted, r.created, e.uid :: r.skipped, r.failure⟩
    | SaveResult.valueError =>
      let r := createPhase save rest
      ⟨e.uid :: r.attempted, r.created, e.uid :: r.skipped, r.failure⟩
    | SaveResult.transportError => ⟨[e.uid], [], [], some e.uid⟩

/-- One event of the destination store: its uid and whether it occurs
after now (the predicate the caldav search with start = now filters by). -/
structure LocalEvent where
  uid : String
  occursAfterNow : Bool
deriving DecidableEq, Repr

/-- _get_local_events_ids: when sync_all is set all destination events
are listed, otherwise only those occurring after now; the uids are
collected into a set, modelled as a deduplicated list. -/
def getLocalEventIds (syncAll : Bool) (store : List LocalEvent) : List String :=
  ((if syncAll then store else store.filter (fun l => l.occursAfterNow)).map
    LocalEvent.uid).dedup

/-- Line 162: the set difference local ids minus remote ids, as a list
keeping the listing order. -/
def toDelete (localIDs remoteIDs : List String) : List String :=
  localIDs.filter (fun id => !(remoteIDs.contains id))

/-- Result of the delete loop: the ids deleted and the id whose delete
raised, if any. -/
structure DeleteOutcome where
  deleted : List String
  failure : Option String
deriving DecidableEq, Repr

/-- Lines 163-168: each id is deleted in order; the delete call has no
exception handler, so a failure aborts the remaining deletes. -/
def runDeletes (del : String → Bool) : List String → DeleteOutcome
  | [] => ⟨[], none⟩
  | id :: rest =>
    if del id then
      let r := runDeletes del rest
      ⟨id :: r.deleted, r.failure⟩
    else
      ⟨[], some id⟩

/-- The configuration flags synchronise reads. -/
structure SyncConfig where
  syncAll : Bool
  keepLocal : Bool
  tzOverride : Option Int
deriving DecidableEq, Repr

/-- The observable outcome of one synchronise call. -/
structure SyncResult where
  attempted : List String
  created : List String
  skippedCreate : List String
  deleted : List String
  failure : Option String
deriving DecidableEq, Repr

/-- Lines 159-166: the delete phase.  Skipped entirely when keep_local is
set; otherwise the local listing minus the uids of ALL remote events
(after the in-place timezone rewriting of the create loop) is deleted. -/
def deletePhase (cfg : SyncConfig) (store : List LocalEvent) (del : String → Bool)
    (remoteEvents : List Event) : DeleteOutcome :=
  if cfg.keepLocal then
    ⟨[], none⟩
  else
    runDeletes del
      (toDelete (getLocalEventIds cfg.syncAll store)
        ((remoteEvents.map (applyTz cfg.tzOverride)).map Event.uid))

/-- ICSToCalDAV.synchronise: filter the remote events, attempt the
creates, and, when the create loop did not raise, run the delete phase.
An uncaught exception in either loop is recorded in failure and aborts
everything after the raise site. -/
def synchronise (cfg : SyncConfig) (nowNaive nowAware : Int) (remoteEvents : List Event)
    (save : Event → SaveResult) (store : List LocalEvent) (del : String → Bool) :
    SyncResult :=
  let c := createPhase save
    (filterEvents cfg.syncAll nowNaive nowAware cfg.tzOverride remoteEvents)
  match c.failure with
  | some u => ⟨c.attempted, c.created, c.skipped, [], some u⟩
  | none =>
    let d := deletePhase cfg store del remoteEvents
    ⟨c.attempted, c.created, c.skipped, d.deleted, d.failure⟩

/-- One scheduled cycle as main sees it: fetching and parsing the remote
source either yields an event list or raises. -/
inductive CycleFetch where
  | ok (events : List Event)
  | failed
deriving Repr

/-- The while-loop of main: cycles run in order; a fetch or parse failure
raises out of the ICSToCalDAV constructor and, having no handler in main,
terminates the process, as does an uncaught exception inside synchronise.
Returns the results of the completed cycles and whether the process died
before exhausting the schedule. -/
def mainLoop (cfg : SyncConfig) (nowNaive nowAware : Int) (save : Event → SaveResult)
    (store : List LocalEvent) (del : String → Bool) :
    List CycleFetch → List SyncResult × Bool
  | [] => ([], false)
  | CycleFetch.failed :: _ => ([], true)
  | CycleFetch.ok events :: rest =>
    let r := synchronise cfg nowNaive nowAware events save store del
    match r.failure with
    | some _ => ([r], true)
    | none =>
      let p := mainLoop cfg nowNaive nowAware save store del rest
      (r :: p.1, p.2)

/-- The timezone rewriting never changes the uid of an event. -/
theorem applyTz_uid (tz : Option Int) (e : Event) : (applyTz tz e).uid = e.uid := by
  cases tz with
  | none => rfl
  | some t =>
    simp only [applyTz]
    by_cases h : e.isAllDay <;> simp [h, Event.replaceTimezone]

/-- Relabelling into the same zone twice is the same as once. -/
theorem applyTz_idem (tz : Option Int) (e : Event) :
    applyTz tz (applyTz tz e) = applyTz tz e := by
  cases tz with
  | none => rfl
  | some t =>
    simp only [applyTz]
    by_cases h : e.isAllDay
    · simp [h]
    · simp [h, Event.replaceTimezone, Timestamp.replaceZone]

/-- When no save raises an uncaught exception, the create loop attempts
every event in order and does not abort. -/
theorem createPhase_no_transport (save : Event → SaveResult)
    (hsave : ∀ e, save e ≠ SaveResult.transportError) (l : List Event) :
    (createPhase save l).attempted = l.map Event.uid ∧
      (createPhase save l).failure = none := by
  induction l with
  | nil => exact ⟨rfl, rfl⟩
  | cons e rest ih =>
    cases h : save e with
    | ok => simp [createPhase, h, ih]
    | validateError => simp [createPhase, h, ih]
    | valueError => simp [createPhase, h, ih]
    | transportError => exact absurd h (hsave e)

/-- When every delete succeeds, the delete loop deletes the whole list. -/
theorem runDeletes_all_success (del : String → Bool) (hdel : ∀ i, del i = true)
    (l : List String) : runDeletes del l = ⟨l, none⟩ := by
  induction l with
  | nil => rfl
  | cons id rest ih => simp [runDeletes, hdel id, ih]

/-- Every id the delete loop deletes came from its input list. -/
theorem runDeletes_deleted_subset (del : String → Bool) (l : List String) :
    ∀ id ∈ (runDeletes del l).deleted, id ∈ l := by
  induction l with
  | nil => intro id h; simp [runDeletes] at h
  | cons x rest ih =>
    intro id h
    by_cases hx : del x
    · simp only [runDeletes, hx, if_true] at h
      rcases List.mem_cons.mp h with h | h
      · simp [h]
      · exact List.mem_cons_of_mem _ (ih id h)
    · simp [runDeletes, hx] at h

/-- Membership in the deletion plan is membership in the local listing
minus the remote ids. -/
theorem mem_toDelete {id : String} {L R : List String} :
    id ∈ toDelete L R ↔ id ∈ L ∧ ¬ id ∈ R := by
  simp [toDelete, List.mem_filter]

/-- In future-only mode, the local listing holds exactly the uids of
destination events occurring after now. -/
theorem mem_getLocalEventIds_future {store : List LocalEvent} {id : String} :
    id ∈ getLocalEventIds false store ↔
      ∃ l, l ∈ store ∧ l.occursAfterNow = true ∧ l.uid = id := by
  simp only [getLocalEventIds, if_neg Bool.false_ne_true, Bool.false_eq_true,
    if_false, List.mem_dedup, List.mem_map, List.mem_filter]
  constructor
  · rintro ⟨l, ⟨hl, hfut⟩, huid⟩
    exact ⟨l, hl, hfut, huid⟩
  · rintro ⟨l, hl, hfut, huid⟩
    exact ⟨l, ⟨hl, hfut⟩, huid⟩

/-- Whatever the outcome of the creates and deletes, every id synchronise
deletes is in the local listing. -/
theorem synchronise_deleted_mem_listing (cfg : SyncConfig) (nowNaive nowAware : Int)
    (events : List Event) (save : Event → SaveResult) (store : List LocalEvent)
    (del : String → Bool) :
    ∀ id ∈ (synchronise cfg nowNaive nowAware events save store del).deleted,
      id ∈ getLocalEventIds cfg.syncAll store := by
  intro id h
  simp only [synchronise] at h
  cases hf : (createPhase save
      (filterEvents cfg.syncAll nowNaive nowAware cfg.tzOverride events)).failure with
  | some u => rw [hf] at h; simp at h
  | none =>
    rw [hf] at h
    simp only [deletePhase] at h
    by_cases hk : cfg.keepLocal
    · simp [hk] at h
    · simp only [hk, Bool.false_eq_true, if_false] at h
      exact (mem_toDelete.mp (runDeletes_deleted_subset del _ id h)).1

/-- C2: with fullSync false, every event whose zone-aware end is strictly
before the aware current instant is excluded by the window filter; with
fullSync true every input event passes (the filter is the timezone
normalization alone, with no time comparison). -/
theorem C2_window_correctness (nowNaive nowAware : Int) (tzOverride : Option Int)
    (events : List Event) (e : Event) (off : Int)
    (hzone : e.endTime.zone = some off) (hlt : e.endTime.instant < nowAware) :
    keepsEvent false nowNaive nowAware e = false ∧
    filterEvents true nowNaive nowAware tzOverride events
      = events.map (applyTz tzOverride) := by
  constructor
  · have h2 : e.endTime.wall - off < nowAware := by
      simpa [Timestamp.instant, hzone] using hlt
    simp [keepsEvent, hzone, h2]
  · unfold filterEvents
    exact List.filter_eq_self.mpr (fun a _ => by simp [keepsEvent])

/-- C2 witness: a zone-aware event ending at instant -1 is excluded at
now = 0, and the full-sync filter returns the input unchanged. -/
theorem C2_witness :
    keepsEvent false 0 0
      { uid := "p", start := { wall := -2, zone := some 0 },
        endTime := { wall := -1, zone := some 0 }, isAllDay := false } = false ∧
    filterEvents true 0 0 none
      [{ uid := "p", start := { wall := -2, zone := some 0 },
         endTime := { wall := -1, zone := some 0 }, isAllDay := false }]
      = [{ uid := "p", start := { wall := -2, zone := some 0 },
           endTime := { wall := -1, zone := some 0 }, isAllDay := false }].map (applyTz none) :=
  C2_window_correctness 0 0 none
    [{ uid := "p", start := { wall := -2, zone := some 0 },
       endTime := { wall := -1, zone := some 0 }, isAllDay := false }]
    { uid := "p", start := { wall := -2, zone := some 0 },
      endTime := { wall := -1, zone := some 0 }, isAllDay := false }
    0 rfl (by decide)

/-- C3 counterexample: an event whose naive end equals the naive now is
KEPT by the filter, because the code skips only when now is strictly
later than the end; the claim says it is excluded. -/
theorem C3_counterexample :
    keepsEvent false 0 0
      { uid := "e", start := { wall := 0, zone := none },
        endTime := { wall := 0, zone := none }, isAllDay := false } = true ∧
    filterEvents false 0 0 none
      [{ uid := "e", start := { wall := 0, zone := none },
         endTime := { wall := 0, zone := none }, isAllDay := false }]
      = [{ uid := "e", start := { wall := 0, zone := none },
           endTime := { wall := 0, zone := none }, isAllDay := false }] := by
  decide

/-- C3 amended: with fullSync false, an event whose naive end timestamp
equals the naive wall-clock now PASSES the window filter; an event is
excluded only when its end is strictly before now. -/
theorem C3_amended_naive_end_equal_now_passes (nowNaive nowAware : Int) (e : Event)
    (hzone : e.endTime.zone = none) (heq : e.endTime.wall = nowNaive) :
    keepsEvent false nowNaive nowAware e = true := by
  simp [keepsEvent, hzone, heq]

/-- C3 amended witness: the boundary event passes at naive now = 0 even
with a different aware now. -/
theorem C3_amended_witness :
    keepsEvent false 0 7
      { uid := "e", start := { wall := 0, zone := none },
        endTime := { wall := 0, zone := none }, isAllDay := false } = true :=
  C3_amended_naive_end_equal_now_passes 0 7
    { uid := "e", start := { wall := 0, zone := none },
      endTime := { wall := 0, zone := none }, isAllDay := false } rfl rfl

/-- C9: the window filter, timezone-override rewriting included, is
idempotent for a fixed now, mode and override. -/
theorem C9_filter_idempotent (syncAll : Bool) (nowNaive nowAware : Int)
    (tzOverride : Option Int) (events : List Event) :
    filterEvents syncAll nowNaive nowAware tzOverride
        (filterEvents syncAll nowNaive nowAware tzOverride events)
      = filterEvents syncAll nowNaive nowAware tzOverride events := by
  unfold filterEvents
  have hfix : ∀ x ∈ (events.map (applyTz tzOverride)).filter
      (keepsEvent syncAll nowNaive nowAware), applyTz tzOverride x = x := by
    intro x hx
    rcases List.mem_map.mp (List.mem_of_mem_filter hx) with ⟨y, _, rfl⟩
    exact applyTz_idem tzOverride y
  have hmap : ((events.map (applyTz tzOverride)).filter
        (keepsEvent syncAll nowNaive nowAware)).map (applyTz tzOverride)
      = ((events.map (applyTz tzOverride)).filter
        (keepsEvent syncAll nowNaive nowAware)).map id :=
    List.map_congr_left (fun x hx => hfix x hx)
  rw [hmap, List.map_id]
  exact List.filter_eq_self.mpr (fun a ha => List.of_mem_filter ha)

/-- C4: for every eligible event list, the uids submitted to the
destination as creates are exactly the uids of the filtered events, in
order, for every destination store state (no pre-check against existing
destination identities), provided no save raises an uncaught exception. -/
theorem C4_toCreate_is_eligible (cfg : SyncConfig) (nowNaive nowAware : Int)
    (events : List Event) (save : Event → SaveResult) (store : List LocalEvent)
    (del : String → Bool)
    (hsave : ∀ e, save e ≠ SaveResult.transportError) :
    (synchronise cfg nowNaive nowAware events save store del).attempted
      = (filterEvents cfg.syncAll nowNaive nowAware cfg.tzOverride events).map Event.uid := by
  have h := createPhase_no_transport save hsave
    (filterEvents cfg.syncAll nowNaive nowAware cfg.tzOverride events)
  simp only [synchronise, h.2]
  exact h.1

/-- C4 witness: one future event is submitted even though the store
already holds the same identity. -/
theorem C4_witness :
    (synchronise { syncAll := false, keepLocal := false, tzOverride := none } 0 0
        [{ uid := "y", start := { wall := 0, zone := some 0 },
           endTime := { wall := 1, zone := some 0 }, isAllDay := false }]
        (fun _ => SaveResult.ok) [{ uid := "y", occursAfterNow := true }]
        (fun _ => true)).attempted
      = (filterEvents false 0 0 none
          [{ uid := "y", start := { wall := 0, zone := some 0 },
             endTime := { wall := 1, zone := some 0 }, isAllDay := false }]).map Event.uid :=
  C4_toCreate_is_eligible { syncAll := false, keepLocal := false, tzOverride := none } 0 0
    [{ uid := "y", start := { wall := 0, zone := some 0 },
       endTime := { wall := 1, zone := some 0 }, isAllDay := false }]
    (fun _ => SaveResult.ok) [{ uid := "y", occursAfterNow := true }] (fun _ => true)
    (fun _ h => SaveResult.noConfusion h)

/-- C8: every id in the deletion plan is in the destination listing and
is not the identity of any eligible (window-filtered) source event. -/
theorem C8_deletion_soundness (syncAll : Bool) (nowNaive nowAware : Int)
    (tzOverride : Option Int) (events : List Event) (store : List LocalEvent) (id : String)
    (hmem : id ∈ toDelete (getLocalEventIds syncAll store)
      ((events.map (applyTz tzOverride)).map Event.uid)) :
    id ∈ getLocalEventIds syncAll store ∧
      ¬ id ∈ (filterEvents syncAll nowNaive nowAware tzOverride events).map Event.uid := by
  rcases mem_toDelete.mp hmem with ⟨hL, hR⟩
  refine ⟨hL, fun hcon => hR ?_⟩
  unfold filterEvents at hcon
  rcases List.mem_map.mp hcon with ⟨e, he, rfl⟩
  exact List.mem_map_of_mem Event.uid (List.mem_of_mem_filter he)

/-- C8 witness: with an empty source, a listed stale id is in the plan,
in the listing, and not among the eligible uids. -/
theorem C8_witness :
    "z" ∈ getLocalEventIds false [{ uid := "z", occursAfterNow := true }] ∧
      ¬ "z" ∈ (filterEvents false 0 0 none []).map Event.uid :=
  C8_deletion_soundness false 0 0 none [] [{ uid := "z", occursAfterNow := true }] "z"
    (by decide)

/-- C1 counterexample: destination listing x,z; source event x ending
yesterday and y ending tomorrow; fullSync off, deletion enabled.  The
claim demands toCreate = y and toDelete = x,z; the code creates y but
deletes only z, because the delete phase subtracts the uids of ALL
remote events, not only the window-filtered ones, so the past event x is
retained. -/
theorem C1_counterexample :
    synchronise { syncAll := false, keepLocal := false, tzOverride := none } 0 0
        [{ uid := "x", start := { wall := -2, zone := some 0 },
           endTime := { wall := -1, zone := some 0 }, isAllDay := false },
         { uid := "y", start := { wall := 0, zone := some 0 },
           endTime := { wall := 1, zone := some 0 }, isAllDay := false }]
        (fun _ => SaveResult.ok)
        [{ uid := "x", occursAfterNow := true }, { uid := "z", occursAfterNow := true }]
        (fun _ => true)
      = { attempted := ["y"], created := ["y"], skippedCreate := [],
          deleted := ["z"], failure := none } := by
  decide

/-- C1 amended: with deletion enabled, deletes succeeding and no uncaught
create failure, the set of identities deleted equals the destination
listing minus the identities of ALL source events (not only the eligible
ones); in the scenario of the claim the plan is toCreate = y and
toDelete = z, the past event x being retained. -/
theorem C1_amended_deletes_listing_minus_all_source_ids (cfg : SyncConfig)
    (nowNaive nowAware : Int) (events : List Event) (save : Event → SaveResult)
    (store : List LocalEvent) (del : String → Bool) (id : String)
    (hkeep : cfg.keepLocal = false)
    (hsave : ∀ e, save e ≠ SaveResult.transportError)
    (hdel : ∀ i, del i = true) :
    id ∈ (synchronise cfg nowNaive nowAware events save store del).deleted ↔
      (id ∈ getLocalEventIds cfg.syncAll store ∧ ¬ id ∈ events.map Event.uid) := by
  have hc := createPhase_no_transport save hsave
    (filterEvents cfg.syncAll nowNaive nowAware cfg.tzOverride events)
  have hids : (events.map (applyTz cfg.tzOverride)).map Event.uid
      = events.map Event.uid := by
    rw [List.map_map]
    exact List.map_congr_left (fun e _ => applyTz_uid cfg.tzOverride e)
  simp only [synchronise, hc.2, deletePhase, hkeep, Bool.false_eq_true, if_false,
    hids, runDeletes_all_success del hdel]
  exact mem_toDelete

/-- C1 amended witness: in the scenario of the claim, x is not deleted
because x is the uid of a source event, eligible or not. -/
theorem C1_amended_witness :
    ("x" ∈ (synchronise { syncAll := false, keepLocal := false, tzOverride := none } 0 0
        [{ uid := "x", start := { wall := -2, zone := some 0 },
           endTime := { wall := -1, zone := some 0 }, isAllDay := false },
         { uid := "y", start := { wall := 0, zone := some 0 },
           endTime := { wall := 1, zone := some 0 }, isAllDay := false }]
        (fun _ => SaveResult.ok)
        [{ uid := "x", occursAfterNow := true }, { uid := "z", occursAfterNow := true }]
        (fun _ => true)).deleted ↔
      ("x" ∈ getLocalEventIds false
          [{ uid := "x", occursAfterNow := true }, { uid := "z", occursAfterNow := true }] ∧
        ¬ "x" ∈ ([{ uid := "x", start := { wall := -2, zone := some 0 },
                    endTime := { wall := -1, zone := some 0 }, isAllDay := false },
                  { uid := "y", start := { wall := 0, zone := some 0 },
                    endTime := { wall := 1, zone := some 0 }, isAllDay := false }].map
                  Event.uid))) :=
  C1_amended_deletes_listing_minus_all_source_ids
    { syncAll := false, keepLocal := false, tzOverride := none } 0 0
    [{ uid := "x", start := { wall := -2, zone := some 0 },
       endTime := { wall := -1, zone := some 0 }, isAllDay := false },
     { uid := "y", start := { wall := 0, zone := some 0 },
       endTime := { wall := 1, zone := some 0 }, isAllDay := false }]
    (fun _ => SaveResult.ok)
    [{ uid := "x", occursAfterNow := true }, { uid := "z", occursAfterNow := true }]
    (fun _ => true) "x" rfl (fun _ h => SaveResult.noConfusion h) (fun _ => rfl)

/-- C5 counterexample: the save of b raises a transport error, which the
create loop does not catch: c is never attempted and the stale id s is
never deleted, so neither the remaining creates nor the delete phase
execute — the claim holds only for validation errors. -/
theorem C5_counterexample :
    synchronise { syncAll := false, keepLocal := false, tzOverride := none } 0 0
        [{ uid := "a", start := { wall := 0, zone := some 0 },
           endTime := { wall := 1, zone := some 0 }, isAllDay := false },
         { uid := "b", start := { wall := 0, zone := some 0 },
           endTime := { wall := 1, zone := some 0 }, isAllDay := false },
         { uid := "c", start := { wall := 0, zone := some 0 },
           endTime := { wall := 1, zone := some 0 }, isAllDay := false }]
        (fun e => if e.uid = "b" then SaveResult.transportError else SaveResult.ok)
        [{ uid := "s", occursAfterNow := true }] (fun _ => true)
      = { attempted := ["a", "b"], created := ["a"], skippedCreate := [],
          deleted := [], failure := some "b" } := by
  decide

/-- C5 amended: per-event isolation holds for the caught exception types
only (ValidateError and ValueError): when no save raises an uncaught
(transport) exception, every eligible event is attempted and the delete
phase still executes; a transport error instead aborts the cycle. -/
theorem C5_amended_validation_failures_isolated (cfg : SyncConfig)
    (nowNaive nowAware : Int) (events : List Event) (save : Event → SaveResult)
    (store : List LocalEvent) (del : String → Bool)
    (hsave : ∀ e, save e ≠ SaveResult.transportError)
    (hkeep : cfg.keepLocal = false) :
    (synchronise cfg nowNaive nowAware events save store del).attempted
      = (filterEvents cfg.syncAll nowNaive nowAware cfg.tzOverride events).map Event.uid ∧
    (synchronise cfg nowNaive nowAware events save store del).deleted
      = (runDeletes del (toDelete (getLocalEventIds cfg.syncAll store)
          (events.map Event.uid))).deleted := by
  have hc := createPhase_no_transport save hsave
    (filterEvents cfg.syncAll nowNaive nowAware cfg.tzOverride events)
  have hids : (events.map (applyTz cfg.tzOverride)).map Event.uid
      = events.map Event.uid := by
    rw [List.map_map]
    exact List.map_congr_left (fun e _ => applyTz_uid cfg.tzOverride e)
  constructor
  · simp only [synchronise, hc.2]
    exact hc.1
  · simp only [synchronise, hc.2, deletePhase, hkeep, Bool.false_eq_true, if_false, hids]

/-- C5 amended witness: v fails validation, w is still created and the
stale id s is still deleted. -/
theorem C5_amended_witness :
    (synchronise { syncAll := false, keepLocal := false, tzOverride := none } 0 0
        [{ uid := "v", start := { wall := 0, zone := some 0 },
           endTime := { wall := 1, zone := some 0 }, isAllDay := false },
         { uid := "w", start := { wall := 0, zone := some 0 },
           endTime := { wall := 1, zone := some 0 }, isAllDay := false }]
        (fun e => if e.uid = "v" then SaveResult.validateError else SaveResult.ok)
        [{ uid := "s", occursAfterNow := true }] (fun _ => true)).attempted
      = (filterEvents false 0 0 none
          [{ uid := "v", start := { wall := 0, zone := some 0 },
             endTime := { wall := 1, zone := some 0 }, isAllDay := false },
           { uid := "w", start := { wall := 0, zone := some 0 },
             endTime := { wall := 1, zone := some 0 }, isAllDay := false }]).map Event.uid ∧
    (synchronise { syncAll := false, keepLocal := false, tzOverride := none } 0 0
        [{ uid := "v", start := { wall := 0, zone := some 0 },
           endTime := { wall := 1, zone := some 0 }, isAllDay := false },
         { uid := "w", start := { wall := 0, zone := some 0 },
           endTime := { wall := 1, zone := some 0 }, isAllDay := false }]
        (fun e => if e.uid = "v" then SaveResult.validateError else SaveResult.ok)
        [{ uid := "s", occursAfterNow := true }] (fun _ => true)).deleted
      = (runDeletes (fun _ => true) (toDelete (getLocalEventIds false
          [{ uid := "s", occursAfterNow := true }])
          ([{ uid := "v", start := { wall := 0, zone := some 0 },
              endTime := { wall := 1, zone := some 0 }, isAllDay := false },
            { uid := "w", start := { wall := 0, zone := some 0 },
              endTime := { wall := 1, zone := some 0 }, isAllDay := false }].map
            Event.uid))).deleted :=
  C5_amended_validation_failures_isolated
    { syncAll := false, keepLocal := false, tzOverride := none } 0 0
    [{ uid := "v", start := { wall := 0, zone := some 0 },
       endTime := { wall := 1, zone := some 0 }, isAllDay := false },
     { uid := "w", start := { wall := 0, zone := some 0 },
       endTime := { wall := 1, zone := some 0 }, isAllDay := false }]
    (fun e => if e.uid = "v" then SaveResult.validateError else SaveResult.ok)
    [{ uid := "s", occursAfterNow := true }] (fun _ => true)
    (by intro e; by_cases h : e.uid = "v" <;> simp [h]) rfl

/-- C6 counterexample: deleting a fails while b is deletable and in the
plan, yet nothing is deleted: the delete call has no exception handler,
so the failure aborts the remaining deletes instead of being isolated. -/
theorem C6_counterexample :
    synchronise { syncAll := false, keepLocal := false, tzOverride := none } 0 0 []
        (fun _ => SaveResult.ok)
        [{ uid := "a", occursAfterNow := true }, { uid := "b", occursAfterNow := true }]
        (fun i => !(i == "a"))
      = { attempted := [], created := [], skippedCreate := [],
          deleted := [], failure := some "a" } ∧
    (fun i => !(i == "a")) "b" = true ∧
    "b" ∈ toDelete (getLocalEventIds false
        [{ uid := "a", occursAfterNow := true }, { uid := "b", occursAfterNow := true }])
        [] := by
  refine ⟨by decide, by decide, by decide⟩

/-- C6 amended: a failing delete aborts the loop: the ids before the
failing one are deleted, the failure is recorded, and no id after the
failing one is attempted. -/
theorem C6_amended_delete_failure_aborts_rest (del : String → Bool)
    (l1 l2 : List String) (x : String)
    (h1 : ∀ y ∈ l1, del y = true) (hx : del x = false) :
    runDeletes del (l1 ++ x :: l2) = ⟨l1, some x⟩ := by
  induction l1 with
  | nil => simp [runDeletes, hx]
  | cons a rest ih =>
    have ha : del a = true := h1 a (List.mem_cons_self a rest)
    have hrest : ∀ y ∈ rest, del y = true :=
      fun y hy => h1 y (List.mem_cons_of_mem a hy)
    simp [runDeletes, ha, ih hrest]

/-- C6 amended witness: b is deleted, the delete of a fails, and c is
never attempted. -/
theorem C6_amended_witness :
    runDeletes (fun i => !(i == "a")) (["b"] ++ "a" :: ["c"]) = ⟨["b"], some "a"⟩ :=
  C6_amended_delete_failure_aborts_rest (fun i => !(i == "a")) ["b"] ["c"] "a"
    (by decide) (by decide)

/-- C7 counterexample: a fetch or parse failure raises out of the
ICSToCalDAV constructor, and the while-loop of main has no handler: the
process dies and the next scheduled cycle, which alone would have
completed (creating y and deleting a), is never attempted. -/
theorem C7_counterexample :
    mainLoop { syncAll := false, keepLocal := false, tzOverride := none } 0 0
        (fun _ => SaveResult.ok) [{ uid := "a", occursAfterNow := true }] (fun _ => true)
        [CycleFetch.failed,
         CycleFetch.ok [{ uid := "y", start := { wall := 0, zone := some 0 },
                          endTime := { wall := 1, zone := some 0 }, isAllDay := false }]]
      = ([], true) ∧
    mainLoop { syncAll := false, keepLocal := false, tzOverride := none } 0 0
        (fun _ => SaveResult.ok) [{ uid := "a", occursAfterNow := true }] (fun _ => true)
        [CycleFetch.ok [{ uid := "y", start := { wall := 0, zone := some 0 },
                          endTime := { wall := 1, zone := some 0 }, isAllDay := false }]]
      = ([{ attempted := ["y"], created := ["y"], skippedCreate := [],
            deleted := ["a"], failure := none }], false) := by
  refine ⟨rfl, by decide⟩

/-- C7 amended: a fetch or parse failure applies no create or delete
operation in that cycle AND terminates the process, so the remaining
scheduled cycles are not attempted. -/
theorem C7_amended_fetch_failure_terminates (cfg : SyncConfig) (nowNaive nowAware : Int)
    (save : Event → SaveResult) (store : List LocalEvent) (del : String → Bool)
    (rest : List CycleFetch) :
    mainLoop cfg nowNaive nowAware save store del (CycleFetch.failed :: rest)
      = ([], true) :=
  rfl

/-- C10: in future-only mode the destination listing holds only uids of
destination events occurring after now, so the uid of a destination event
lying entirely in the past is never in the deletion plan and is never
deleted by synchronise. -/
theorem C10_past_destination_events_never_deleted (store : List LocalEvent)
    (remoteIDs : List String) (keepLocal : Bool) (tzOverride : Option Int)
    (nowNaive nowAware : Int) (events : List Event) (save : Event → SaveResult)
    (del : String → Bool) (u : String)
    (hpast : ∀ l ∈ store, l.uid = u → l.occursAfterNow = false) :
    (∀ id ∈ getLocalEventIds false store,
       ∃ l, l ∈ store ∧ l.occursAfterNow = true ∧ l.uid = id) ∧
    ¬ u ∈ toDelete (getLocalEventIds false store) remoteIDs ∧
    ¬ u ∈ (synchronise { syncAll := false, keepLocal := keepLocal, tzOverride := tzOverride }
        nowNaive nowAware events save store del).deleted := by
  have hnotin : ¬ u ∈ getLocalEventIds false store := by
    intro hin
    rcases mem_getLocalEventIds_future.mp hin with ⟨l, hl, hfut, huid⟩
    rw [hpast l hl huid] at hfut
    exact Bool.false_ne_true hfut
  refine ⟨fun id hid => mem_getLocalEventIds_future.mp hid, ?_, ?_⟩
  · intro hin
    exact hnotin (mem_toDelete.mp hin).1
  · intro hin
    exact hnotin (synchronise_deleted_mem_listing
      { syncAll := false, keepLocal := keepLocal, tzOverride := tzOverride }
      nowNaive nowAware events save store del u hin)

/-- C10 witness: a wholly-past destination event p is absent from the
listing, from the plan, and from the deleted ids. -/
theorem C10_witness :
    (∀ id ∈ getLocalEventIds false [{ uid := "p", occursAfterNow := false }],
       ∃ l, l ∈ [{ uid := "p", occursAfterNow := false }] ∧
         LocalEvent.occursAfterNow l = true ∧ LocalEvent.uid l = id) ∧
    ¬ "p" ∈ toDelete (getLocalEventIds false [{ uid := "p", occursAfterNow := false }]) [] ∧
    ¬ "p" ∈ (synchronise { syncAll := false, keepLocal := false, tzOverride := none }
        0 0 [] (fun _ => SaveResult.ok) [{ uid := "p", occursAfterNow := false }]
        (fun _ => true)).deleted :=
  C10_past_destination_events_never_deleted [{ uid := "p", occursAfterNow := false }]
    [] false none 0 0 [] (fun _ => SaveResult.ok) (fun _ => true) "p" (by decide)
